import Mathlib

/-!
Verification of the A2A documentation macro module (`.mkdocs/macros.py`).

The module parses Protocol Buffer definition files and renders messages,
enums and services as Markdown tables.  The external `.proto` parser, the
filesystem and the `tabulate` table formatter are black boxes to the
repository; they are modelled by an explicit AST type (`Element`), an
explicit parse-outcome type (`ParseOutcome`) and a concrete `tabulate`
model.  All other definitions are direct translations of the Python source.
-/

/-! ## Python string primitives

Python string operations used by the source, modelled over `List Char`
so that every definition is structurally recursive and kernel-reducible.
-/

/-- Whitespace characters stripped by Python `str.strip()`. -/
def isPySpace (c : Char) : Bool :=
  c = ' ' || c = '\t' || c = '\n' || c = '\r' || c = '\x0b' || c = '\x0c'

/-- Drop the characters satisfying `p` from both ends of `s`
(Python `str.strip(chars)`). -/
def stripBoth (p : Char → Bool) (s : String) : String :=
  String.mk (((s.data.dropWhile p).reverse.dropWhile p).reverse)

/-- Python `str.strip()` with no argument: strip whitespace from both ends. -/
def pyStrip (s : String) : String := stripBoth isPySpace s

/-- Python `str.strip('"')`. -/
def pyStripQuotes (s : String) : String := stripBoth (fun c => c = '"') s

/-- Python `str.strip('`')` (used on the first table cell when recording
oneof member names). -/
def pyStripTicks (s : String) : String := stripBoth (fun c => c = '`') s

/-- Boolean list-prefix test used to model Python `str.startswith`. -/
def isHeadOf : List Char → List Char → Bool
  | [], _ => true
  | _ :: _, [] => false
  | a :: as, b :: bs => a = b && isHeadOf as bs

/-- Python `str.startswith(p)`. -/
def sStarts (s p : String) : Bool := isHeadOf p.data s.data

/-- Python `str.endswith(p)`. -/
def sEnds (s p : String) : Bool := isHeadOf p.data.reverse s.data.reverse

/-- Python `str.removeprefix(p)`. -/
def dropLeading (s p : String) : String :=
  if sStarts s p then String.mk (s.data.drop p.data.length) else s

/-- Python `str.removesuffix(p)`. -/
def dropTrailing (s p : String) : String :=
  if sEnds s p then String.mk (s.data.take (s.data.length - p.data.length)) else s

/-- Auxiliary worker for `splitChar`. -/
def splitCharAux (c : Char) : List Char → List Char → List String
  | [], acc => [String.mk acc.reverse]
  | x :: xs, acc =>
    if x = c then String.mk acc.reverse :: splitCharAux c xs []
    else splitCharAux c xs (x :: acc)

/-- Python `str.split(c)` for a single-character separator. -/
def splitChar (c : Char) (s : String) : List String := splitCharAux c s.data []

/-- Auxiliary worker for `pySplitlines`. -/
def pySplitlinesAux : List Char → List Char → List String
  | [], acc => if acc.isEmpty then [] else [String.mk acc.reverse]
  | '\r' :: '\n' :: rest, acc => String.mk acc.reverse :: pySplitlinesAux rest []
  | '\r' :: rest, acc => String.mk acc.reverse :: pySplitlinesAux rest []
  | '\n' :: rest, acc => String.mk acc.reverse :: pySplitlinesAux rest []
  | c :: rest, acc => pySplitlinesAux rest (c :: acc)

/-- Python `str.splitlines()` restricted to the `\n`, `\r`, `\r\n` line
boundaries (the exotic Unicode boundaries never occur in proto comments).
A trailing boundary produces no empty final line and `""` yields `[]`. -/
def pySplitlines (s : String) : List String := pySplitlinesAux s.data []

/-- Python `sep.join(parts)`. -/
def joinSep (sep : String) : List String → String
  | [] => ""
  | [x] => x
  | x :: y :: xs => x ++ sep ++ joinSep sep (y :: xs)

/-- Python `str.title()`: a letter is uppercased when the previous character
is not a letter and lowercased otherwise. -/
def pyTitle (s : String) : String :=
  String.mk (s.data.foldl
    (fun acc c =>
      if c.isAlpha then
        (true, (if acc.1 then c.toLower else c.toUpper) :: acc.2)
      else (false, c :: acc.2))
    ((false, []) : Bool × List Char)).2.reverse

/-- Auxiliary worker for `strContains`. -/
def containsAux (p : List Char) : List Char → Bool
  | [] => isHeadOf p []
  | x :: rest => isHeadOf p (x :: rest) || containsAux p rest

/-- Python substring containment `p in s`. -/
def strContains (s p : String) : Bool := containsAux p.data s.data

/-- Python `str.lower()` (ASCII, which covers all type names involved). -/
def lowerStr (s : String) : String := String.mk (s.data.map Char.toLower)

/-! ## The proto AST

Model of the external `proto_schema_parser` AST classes actually used by
the source: `Comment`, `Field`, `MapField`, `OneOf`, `Message`, `Enum`,
`EnumValue`, `Service`, `Method` (with its `MessageType` request/response
descriptors) and field options.  The mutable `comments` attribute that the
Python code attaches to nodes is modelled as an ordinary constructor
argument of every non-comment node.
-/

/-- A field option as produced by the external parser: a name and the raw
(string) value. -/
structure OptionEntry where
  name : String
  value : String
deriving DecidableEq, Repr

/-- The request/response descriptor of a service method
(`MessageType(type=..., stream=...)`). -/
structure MessageType where
  type : String
  stream : Bool
deriving DecidableEq, Repr

/-- Model of the external parser's AST node classes. -/
inductive Element where
  | comment (text : String)
  | field (name : String) (cardinality : Option String) (type : String)
      (options : List OptionEntry) (comments : List String)
  | mapField (name : String) (keyType : String) (valueType : String)
      (options : List OptionEntry) (comments : List String)
  | oneOf (name : String) (elements : List Element) (comments : List String)
  | message (name : String) (elements : List Element) (comments : List String)
  | enum (name : String) (elements : List Element) (comments : List String)
  | enumValue (name : String) (comments : List String)
  | service (name : String) (elements : List Element) (comments : List String)
  | method (name : String) (inputType : MessageType) (outputType : MessageType)
      (comments : List String)

/-- Python `isinstance(el, Comment)`. -/
def Element.isComment : Element → Bool
  | .comment _ => true
  | _ => false

/-- Python `isinstance(el, Field)` (in the external parser `MapField` is not
a subclass of `Field`). -/
def Element.isFieldElem : Element → Bool
  | .field _ _ _ _ _ => true
  | _ => false

/-- Python `isinstance(el, Field | MapField)`. -/
def Element.isFieldOrMap : Element → Bool
  | .field _ _ _ _ _ => true
  | .mapField _ _ _ _ _ => true
  | _ => false

/-- Python `isinstance(el, Method)`. -/
def Element.isMethod : Element → Bool
  | .method _ _ _ _ => true
  | _ => false

/-- Python `getattr(el, 'name', None)`: every AST node except a comment has
a `name` attribute. -/
def Element.pyName : Element → Option String
  | .comment _ => none
  | .field n _ _ _ _ => some n
  | .mapField n _ _ _ _ => some n
  | .oneOf n _ _ => some n
  | .message n _ _ => some n
  | .enum n _ _ => some n
  | .enumValue n _ => some n
  | .service n _ _ => some n
  | .method n _ _ _ => some n

/-- The `elements` attribute of container nodes (empty for the rest). -/
def Element.elementsOf : Element → List Element
  | .oneOf _ els _ => els
  | .message _ els _ => els
  | .enum _ els _ => els
  | .service _ els _ => els
  | _ => []

/-- Python `getattr(element, 'comments', [])`: the attached comments of a
node (a comment node itself never receives any). -/
def Element.commentsOf : Element → List String
  | .comment _ => []
  | .field _ _ _ _ c => c
  | .mapField _ _ _ _ c => c
  | .oneOf _ _ c => c
  | .message _ _ c => c
  | .enum _ _ c => c
  | .enumValue _ c => c
  | .service _ _ c => c
  | .method _ _ _ c => c

/-- Python `getattr(field, 'options', [])`. -/
def Element.optionsOf : Element → List OptionEntry
  | .field _ _ _ o _ => o
  | .mapField _ _ _ o _ => o
  | _ => []

/-! ## Configuration: the fixed primitive-name table -/

/-- The `TYPE_MAP` dictionary from the source, as an insertion-ordered
association list. -/
def TYPE_MAP : List (String × String) :=
  [("string", "string"),
   ("int32", "integer"),
   ("int64", "integer"),
   ("bool", "boolean"),
   ("bytes", "bytes"),
   ("double", "float"),
   ("float", "float"),
   ("google.protobuf.Struct", "object"),
   ("google.protobuf.Timestamp", "timestamp"),
   ("google.protobuf.Value", "any"),
   ("google.protobuf.Empty", "empty")]

/-- Python `TYPE_MAP.get(key, default)`. -/
def typeMapGet (key dflt : String) : String :=
  match List.lookup key TYPE_MAP with
  | some v => v
  | none => dflt

/-! ## Helper functions of the source module -/

/-- Translation of `_extract_comments` (lines 195-217): clean each raw
comment attached to an element, drop tooling directives, and join the
survivors with single spaces. -/
def extractComments (raw_comments : List String) : String :=
  let cleaned_parts := raw_comments.foldl
    (fun acc comment =>
      let text := dropTrailing (dropLeading (dropLeading (pyStrip comment) "//") "/*") "*/"
      let lines := (pySplitlines text).map (fun line => pyStrip (dropLeading (pyStrip line) "*"))
      let combined := joinSep " " (lines.filter (fun l => l != ""))
      if combined != "" && !(sStarts combined "protolint:")
          && !(sStarts combined "--8<--") && !(sStarts combined "Next ID:") then
        acc ++ [combined]
      else acc)
    []
  joinSep " " cleaned_parts

/-- Translation of the body of `_attach_comments` (lines 220-232), with the
Python mutation `el.comments = buffer` rendered as rebuilding the node.
`buffer` is the running list of comment texts not yet attached. -/
def attachGo (buffer : List String) : List Element → List Element
  | [] => []
  | Element.comment t :: rest => attachGo (buffer ++ [t]) rest
  | Element.field n c ty o _ :: rest => Element.field n c ty o buffer :: attachGo [] rest
  | Element.mapField n k v o _ :: rest => Element.mapField n k v o buffer :: attachGo [] rest
  | Element.oneOf n els _ :: rest => Element.oneOf n (attachGo [] els) buffer :: attachGo [] rest
  | Element.message n els _ :: rest => Element.message n (attachGo [] els) buffer :: attachGo [] rest
  | Element.enum n els _ :: rest => Element.enum n (attachGo [] els) buffer :: attachGo [] rest
  | Element.enumValue n _ :: rest => Element.enumValue n buffer :: attachGo [] rest
  | Element.service n els _ :: rest => Element.service n (attachGo [] els) buffer :: attachGo [] rest
  | Element.method n it ot _ :: rest => Element.method n it ot buffer :: attachGo [] rest

/-- Translation of `_attach_comments`: walk the element list with an empty
initial buffer. -/
def attachComments (elements : List Element) : List Element := attachGo [] elements

/-- The effect of `_attach_comments` on one non-comment element: its
`comments` attribute is set to the flushed buffer and its nested element
list (if any) is walked recursively with a fresh buffer. -/
def attachOne (el : Element) (buffer : List String) : Element :=
  match el with
  | Element.comment t => Element.comment t
  | Element.field n c ty o _ => Element.field n c ty o buffer
  | Element.mapField n k v o _ => Element.mapField n k v o buffer
  | Element.oneOf n els _ => Element.oneOf n (attachComments els) buffer
  | Element.message n els _ => Element.message n (attachComments els) buffer
  | Element.enum n els _ => Element.enum n (attachComments els) buffer
  | Element.enumValue n _ => Element.enumValue n buffer
  | Element.service n els _ => Element.service n (attachComments els) buffer
  | Element.method n it ot _ => Element.method n it ot buffer

/-- Python `proto_type.split('.')[-1]`. -/
def lastComponent (s : String) : String := (splitChar '.' s).getLastD s

/-- Translation of `_format_type_for_docs` (lines 235-258). -/
def formatTypeForDocs (proto_type : String) (is_repeated : Bool := false)
    (map_key : Option String := none) : String :=
  let display_name := typeMapGet proto_type (lastComponent proto_type)
  let is_primitive : Bool :=
    (List.lookup proto_type TYPE_MAP).isSome || sStarts proto_type "google.protobuf"
  let label :=
    if is_primitive then "`" ++ display_name ++ "`"
    else "[`" ++ display_name ++ "`](#" ++ lowerStr display_name ++ ")"
  match map_key with
  | some k =>
    if k = "" then
      if is_repeated then "array of " ++ label else label
    else
      "map of " ++ typeMapGet k k ++ " to " ++ label
  | none =>
    if is_repeated then "array of " ++ label else label

/-- The `target_cls` argument of `_find_type`: the three AST classes the
macros look up. -/
inductive TargetKind where
  | message
  | enum
  | service
deriving DecidableEq, Repr

/-- Python `isinstance(el, target_cls)` for the three lookup classes. -/
def Element.isKind : Element → TargetKind → Bool
  | .message _ _ _, .message => true
  | .enum _ _ _, .enum => true
  | .service _ _ _, .service => true
  | _, _ => false

/-- Translation of `_find_type` (lines 261-270): pre-order search, first
match wins, recursing only into `Message` nodes. -/
def findType : List Element → String → TargetKind → Option Element
  | [], _, _ => none
  | el :: rest, name, k =>
    if el.pyName == some name && el.isKind k then some el
    else
      match el with
      | Element.message _ els _ =>
        match findType els name k with
        | some found => some found
        | none => findType rest name k
      | _ => findType rest name k

/-- Translation of `_snake_to_camel_case` (lines 315-318). -/
def snakeToCamelCase (snake_str : String) : String :=
  let components := splitChar '_' snake_str
  components.headD "" ++ joinSep "" ((components.drop 1).map pyTitle)

/-- The `json_name` extraction inside `_process_field` (lines 282-284):
the quote-stripped value of the first option named `json_name`, if any. -/
def jsonNameOf (options : List OptionEntry) : Option String :=
  options.findSome? (fun o => if o.name == "json_name" then some (pyStripQuotes o.value) else none)

/-- Translation of `_process_field` (lines 273-312): one table row
`[name, type, required, description]` for a `Field` or `MapField`. -/
def processField (field : Element) (is_oneof : Bool := false) : List String :=
  let options := field.optionsOf
  let cardinality : Option String :=
    match field with
    | Element.field _ c _ _ _ => c
    | _ => none
  let json_name := jsonNameOf options
  let display_name :=
    match json_name with
    | some j => if j = "" then snakeToCamelCase (field.pyName.getD "") else j
    | none => snakeToCamelCase (field.pyName.getD "")
  let is_map := field.isFieldOrMap && !field.isFieldElem
  let is_repeated : Bool := cardinality == some "REPEATED"
  let type_to_format :=
    match field, is_map with
    | Element.mapField _ _ v _ _, true => v
    | Element.field _ _ t _ _, _ => t
    | _, _ => ""
  let map_key : Option String :=
    match field with
    | Element.mapField _ kt _ _ _ => some kt
    | _ => none
  let type_str := formatTypeForDocs type_to_format is_repeated map_key
  let has_required_behavior : Bool :=
    options.any (fun opt => strContains opt.name "field_behavior" && strContains opt.value "REQUIRED")
  let req_val :=
    if is_oneof then "Optional (OneOf)"
    else if cardinality == some "REQUIRED" || has_required_behavior then "Yes"
    else "No"
  let desc := extractComments field.commentsOf
  ["`" ++ display_name ++ "`", type_str, req_val, desc]

/-! ## Model of the external `tabulate` helper -/

/-- Pad a cell with spaces on the right to the column width. -/
def padRight (s : String) (w : Nat) : String :=
  s ++ String.mk (List.replicate (w - s.data.length) ' ')

/-- The width of column `i`: the longest cell in it, header included. -/
def columnWidths (headers : List String) (rows : List (List String)) : List Nat :=
  (List.range headers.length).map
    (fun i => ((headers :: rows).map (fun r => (r.getD i "").data.length)).foldl max 0)

/-- One padded table line. -/
def tableLine (cells : List String) (widths : List Nat) : String :=
  "| " ++ joinSep " | " ((cells.zip widths).map (fun p => padRight p.1 p.2)) ++ " |"

/-- The dashed separator line below the header. -/
def dashLine (widths : List Nat) : String :=
  "|" ++ joinSep "|" (widths.map (fun w => String.mk (List.replicate (w + 2) '-'))) ++ "|"

/-- Model of the external `tabulate(rows, headers, tablefmt='github')`
call.  The library is a black box to the repository; the claims use it only
as a function of the rows and headers, which this model is. -/
def tabulate (rows : List (List String)) (headers : List String) : String :=
  let ws := columnWidths headers rows
  joinSep "\n" (tableLine headers ws :: dashLine ws :: rows.map (fun r => tableLine r ws))

/-! ## The macro layer -/

/-- Model of the environment-dependent part of `_parse_proto`: the
filesystem check and the external parser invocation are black boxes, so a
macro invocation is parameterised by their combined outcome — the file is
missing, the parser raises, or a raw element list is produced. -/
inductive ParseOutcome where
  | fileNotFound
  | parseError (msg : String)
  | ok (raw : List Element)

/-- A raised Python exception: `FileNotFoundError` is distinguished because
`proto_to_table` catches exactly that class. -/
inductive PyError where
  | fileNotFoundError (msg : String)
  | otherError (msg : String)
deriving DecidableEq, Repr

/-- Python `str(e)` on a raised exception. -/
def PyError.message : PyError → String
  | .fileNotFoundError m => m
  | .otherError m => m

/-- Translation of `_parse_proto` (lines 51-58): raise `FileNotFoundError`
with message `'Proto not found: <path>'` when the file is missing, re-raise
parser failures, and otherwise attach comments to the parsed AST. -/
def parseProto (file_path : String) (outcome : ParseOutcome) : Except PyError (List Element) :=
  match outcome with
  | ParseOutcome.fileNotFound => Except.error (PyError.fileNotFoundError ("Proto not found: " ++ file_path))
  | ParseOutcome.parseError m => Except.error (PyError.otherError m)
  | ParseOutcome.ok raw => Except.ok (attachComments raw)

/-- Python `dict.setdefault(key, []).append(v)` on an insertion-ordered
association list with unique keys (invariant maintained by construction). -/
def setdefaultAppend : List (String × List String) → String → String → List (String × List String)
  | [], key, v => [(key, [v])]
  | (a, b) :: rest, key, v =>
    if a = key then (a, b ++ [v]) :: rest
    else (a, b) :: setdefaultAppend rest key v

/-- The inner loop of `proto_to_table` over the members of one `OneOf`
group (lines 86-94): each `Field` member becomes a row marked as a oneof
member, and its backtick-stripped display name is recorded under the
group's name. -/
def oneofStep (oname : String) (acc : List (List String) × List (String × List String))
    (oel : Element) : List (List String) × List (String × List String) :=
  match oel with
  | Element.field _ _ _ _ _ =>
    let row := processField oel true
    (acc.1 ++ [row], setdefaultAppend acc.2 oname (pyStripTicks (row.getD 0 "")))
  | _ => acc

/-- The outer loop of `proto_to_table` over the message's direct children
(lines 81-94). -/
def collectStep (acc : List (List String) × List (String × List String))
    (el : Element) : List (List String) × List (String × List String) :=
  match el with
  | Element.field _ _ _ _ _ => (acc.1 ++ [processField el false], acc.2)
  | Element.mapField _ _ _ _ _ => (acc.1 ++ [processField el false], acc.2)
  | Element.oneOf oname oels _ => oels.foldl (oneofStep oname) acc
  | _ => acc

/-- The row and oneof-group extraction of `proto_to_table`. -/
def collectRows (els : List Element) : List (List String) × List (String × List String) :=
  els.foldl collectStep ([], [])

/-- The table headers of the message macro. -/
def messageHeaders : List String := ["Field", "Type", "Required", "Description"]

/-- The mutual-exclusion note emitted for a oneof group (line 119). -/
def oneofNote (message_name : String) (fields : List String) : String :=
  "**Note:** A `" ++ message_name ++ "` MUST contain exactly one of the following: "
    ++ joinSep ", " (fields.map (fun f => "`" ++ f ++ "`"))

/-- Translation of the `proto_to_table` macro (lines 60-122).  Only
`FileNotFoundError` is caught; a parser failure propagates as
`Except.error`. -/
def protoToTable (message_name : String) (proto_file : String := "specification/a2a.proto")
    (outcome : ParseOutcome := ParseOutcome.ok []) : Except PyError String :=
  match parseProto proto_file outcome with
  | Except.error (PyError.fileNotFoundError m) => Except.ok ("**Error:** " ++ m)
  | Except.error e => Except.error e
  | Except.ok elements =>
    match findType elements message_name TargetKind.message with
    | none => Except.ok ("**Error:** Message `" ++ message_name ++ "` not found.")
    | some target_message =>
      let rows := (collectRows target_message.elementsOf).1
      let oneof_groups := (collectRows target_message.elementsOf).2
      if rows.isEmpty then Except.ok "None"
      else
        let msg_desc := extractComments target_message.commentsOf
        let output₁ : List String := if msg_desc != "" then [msg_desc, ""] else []
        let output₂ := output₁ ++ [tabulate rows messageHeaders]
        let output₃ :=
          if oneof_groups.isEmpty then output₂
          else
            output₂ ++ [""] ++ oneof_groups.filterMap
              (fun p => if 1 < p.2.length then some (oneofNote message_name p.2) else none)
        Except.ok (joinSep "\n" output₃)

/-- The enum-value rows of the enum macro (lines 135-139). -/
def enumRows (els : List Element) : List (List String) :=
  els.filterMap
    (fun e =>
      match e with
      | Element.enumValue n c => some ["`" ++ n ++ "`", extractComments c]
      | _ => none)

/-- Translation of the `proto_enum_to_table` macro (lines 124-144).  The
whole body is wrapped in a catch-all, so every failure becomes an
`"**Error:** ..."` string. -/
def protoEnumToTable (enum_name : String) (proto_file : String := "specification/a2a.proto")
    (outcome : ParseOutcome := ParseOutcome.ok []) : Except PyError String :=
  match parseProto proto_file outcome with
  | Except.error e => Except.ok ("**Error:** " ++ e.message)
  | Except.ok elements =>
    match findType elements enum_name TargetKind.enum with
    | none => Except.ok ("**Error:** Enum `" ++ enum_name ++ "` not found.")
    | some el =>
      Except.ok (extractComments el.commentsOf ++ "\n\n"
        ++ tabulate (enumRows el.elementsOf) ["Value", "Description"])

/-- The method rows of the service macro (lines 157-178). -/
def serviceRows (els : List Element) : List (List String) :=
  els.filterMap
    (fun el =>
      match el with
      | Element.method n it ot c =>
        let req₀ := formatTypeForDocs it.type
        let req_str := if it.stream then "stream " ++ req₀ else req₀
        let res₀ := formatTypeForDocs ot.type
        let res_str := if ot.stream then "stream " ++ res₀ else res₀
        some ["`" ++ n ++ "`", req_str, res_str, extractComments c]
      | _ => none)

/-- Translation of the `proto_service_to_table` macro (lines 146-187), with
the same catch-all policy as the enum macro. -/
def protoServiceToTable (service_name : String) (proto_file : String := "specification/a2a.proto")
    (outcome : ParseOutcome := ParseOutcome.ok []) : Except PyError String :=
  match parseProto proto_file outcome with
  | Except.error e => Except.ok ("**Error:** " ++ e.message)
  | Except.ok elements =>
    match findType elements service_name TargetKind.service with
    | none => Except.ok ("**Error:** Service `" ++ service_name ++ "` not found.")
    | some service =>
      let rows := serviceRows service.elementsOf
      if rows.isEmpty then Except.ok "None"
      else Except.ok (tabulate rows ["Method", "Request", "Response", "Description"])

/-- Whether a macro result is the literal string `"None"`. -/
def isNoneOutput : Except PyError String → Bool
  | Except.ok s => s == "None"
  | Except.error _ => false

/-! ## Declarative characterisations used by the claims -/

/-- Declarative form of the message macro's row extraction: every plain or
map field yields one row, every `Field` member of a oneof group yields one
row marked as a oneof member, everything else yields none, in declaration
order. -/
def rowsSpec (els : List Element) : List (List String) :=
  els.flatMap
    (fun el =>
      match el with
      | Element.field _ _ _ _ _ => [processField el false]
      | Element.mapField _ _ _ _ _ => [processField el false]
      | Element.oneOf _ oels _ => (oels.filter Element.isFieldElem).map (fun fl => processField fl true)
      | _ => [])

/-- The backtick-stripped display name recorded for a oneof member. -/
def oneofDisplay (fl : Element) : String := pyStripTicks ((processField fl true).getD 0 "")

/-- The (group name, member display name) pairs of one oneof group. -/
def groupPairs (oname : String) (oels : List Element) : List (String × String) :=
  (oels.filter Element.isFieldElem).map (fun fl => (oname, oneofDisplay fl))

/-- All (group name, member display name) pairs of a message body, in
declaration order. -/
def oneofPairs (els : List Element) : List (String × String) :=
  els.flatMap
    (fun el =>
      match el with
      | Element.oneOf oname oels _ => groupPairs oname oels
      | _ => [])

/-- Fold a pair list into oneof groups with `setdefaultAppend`. -/
def groupFold (g : List (String × List String)) (ps : List (String × String)) :
    List (String × List String) :=
  ps.foldl (fun acc p => setdefaultAppend acc p.1 p.2) g

/-- The member display names recorded under group name `n`, in order. -/
def groupVals (ps : List (String × String)) (n : String) : List String :=
  ps.filterMap (fun q => if q.1 = n then some q.2 else none)

/-- The per-comment cleaning step actually performed by the source
(`_extract_comments` body): strip whitespace, then a leading `//`, then a
leading `/*` and a trailing `*/`, then from every line a leading `*`, and
space-join the non-empty lines — regardless of the comment style. -/
def cleanCommentSpec (comment : String) : String :=
  let text := dropTrailing (dropLeading (dropLeading (pyStrip comment) "//") "/*") "*/"
  let lines := (pySplitlines text).map (fun line => pyStrip (dropLeading (pyStrip line) "*"))
  joinSep " " (lines.filter (fun l => l != ""))

/-- Whether a cleaned comment survives: non-empty and not a tooling
directive. -/
def keepComment (c : String) : Bool :=
  c != "" && !(sStarts c "protolint:") && !(sStarts c "--8<--") && !(sStarts c "Next ID:")

/-- The loop body of `_extract_comments` as a named function (verbatim the
lambda inside `extractComments`). -/
def extractStep (acc : List String) (comment : String) : List String :=
  let text := dropTrailing (dropLeading (dropLeading (pyStrip comment) "//") "/*") "*/"
  let lines := (pySplitlines text).map (fun line => pyStrip (dropLeading (pyStrip line) "*"))
  let combined := joinSep " " (lines.filter (fun l => l != ""))
  if combined != "" && !(sStarts combined "protolint:")
      && !(sStarts combined "--8<--") && !(sStarts combined "Next ID:") then
    acc ++ [combined]
  else acc

/-- Formalisation of claim C7's cleaning rule exactly as stated, for
refutation: `//` is stripped from line comments, the `/*`...`*/` delimiters
from block comments, and the per-line leading `*` strip is applied only to
block comments. -/
def specCleanC7 (comment : String) : String :=
  let t := pyStrip comment
  if sStarts t "//" then
    joinSep " " (((pySplitlines (dropLeading t "//")).map pyStrip).filter (fun l => l != ""))
  else if sStarts t "/*" then
    let text := dropTrailing (dropLeading t "/*") "*/"
    joinSep " " (((pySplitlines text).map
      (fun line => pyStrip (dropLeading (pyStrip line) "*"))).filter (fun l => l != ""))
  else
    joinSep " " (((pySplitlines t).map pyStrip).filter (fun l => l != ""))

/-- Formalisation of claim C7's whole description rule as stated, for
refutation. -/
def specDescriptionC7 (cs : List String) : String :=
  joinSep " " ((cs.map specCleanC7).filter keepComment)

/-- Formalisation of claim C8's display-name rule exactly as stated, for
refutation: whenever a `json_name` option is present its quote-stripped
value is the display name. -/
def specDisplayNameC8 (opts : List OptionEntry) (declared : String) : String :=
  match jsonNameOf opts with
  | some j => j
  | none => snakeToCamelCase declared

/-! ## Shared helper lemmas -/

theorem attachGo_comments (texts : List String) (buffer : List String) (l : List Element) :
    attachGo buffer (texts.map Element.comment ++ l) = attachGo (buffer ++ texts) l := by
  induction texts generalizing buffer with
  | nil => simp
  | cons t ts ih => simp [attachGo, ih]

theorem attachGo_cons_real (el : Element) (h : el.isComment = false)
    (buffer : List String) (rest : List Element) :
    attachGo buffer (el :: rest) = attachOne el buffer :: attachGo [] rest := by
  cases el <;> simp_all [attachGo, attachOne, attachComments, Element.isComment]

theorem foldl_oneofStep (oname : String) (oels : List Element)
    (acc : List (List String) × List (String × List String)) :
    oels.foldl (oneofStep oname) acc
      = (acc.1 ++ (oels.filter Element.isFieldElem).map (fun fl => processField fl true),
         groupFold acc.2 (groupPairs oname oels)) := by
  induction oels generalizing acc with
  | nil => simp [groupPairs, groupFold]
  | cons hd tl ih =>
    cases hd <;>
      simp [oneofStep, groupPairs, groupFold, Element.isFieldElem, ih, oneofDisplay,
        List.filter_cons, List.append_assoc]

theorem foldl_collectStep (els : List Element)
    (acc : List (List String) × List (String × List String)) :
    els.foldl collectStep acc = (acc.1 ++ rowsSpec els, groupFold acc.2 (oneofPairs els)) := by
  induction els generalizing acc with
  | nil => simp [rowsSpec, oneofPairs, groupFold]
  | cons hd tl ih =>
    cases hd <;>
      simp [collectStep, rowsSpec, oneofPairs, ih, foldl_oneofStep, groupFold,
        List.foldl_append, List.flatMap_cons, List.append_assoc]

theorem collectRows_eq (els : List Element) :
    collectRows els = (rowsSpec els, groupFold [] (oneofPairs els)) := by
  simpa [collectRows, groupFold] using foldl_collectStep els ([], [])

theorem lookup_cons_self {β : Type} (a : String) (x : β) (l : List (String × β)) :
    List.lookup a ((a, x) :: l) = some x := by
  simp [List.lookup]

theorem lookup_cons_ne {β : Type} {a b : String} (x : β) (l : List (String × β))
    (h : a ≠ b) :
    List.lookup a ((b, x) :: l) = List.lookup a l := by
  have hb : (a == b) = false := beq_eq_false_iff_ne.mpr h
  simp [List.lookup, hb]

theorem lookup_setdefaultAppend (g : List (String × List String)) (k v n : String) :
    List.lookup n (setdefaultAppend g k v)
      = if n = k then some ((List.lookup n g).getD [] ++ [v]) else List.lookup n g := by
  induction g with
  | nil =>
    by_cases hnk : n = k
    · subst hnk
      rw [setdefaultAppend, lookup_cons_self, if_pos rfl]
      simp [List.lookup]
    · rw [setdefaultAppend, lookup_cons_ne _ _ hnk, if_neg hnk]
  | cons p rest ih =>
    obtain ⟨a, b⟩ := p
    by_cases hak : a = k
    · rw [setdefaultAppend, if_pos hak]
      by_cases hna : n = a
      · subst hna
        rw [lookup_cons_self, lookup_cons_self, if_pos hak]
        simp
      · rw [lookup_cons_ne _ _ hna, lookup_cons_ne _ _ hna,
          if_neg (fun hnk => hna (hnk.trans hak.symm))]
    · rw [setdefaultAppend, if_neg hak]
      by_cases hna : n = a
      · subst hna
        rw [lookup_cons_self, if_neg hak, lookup_cons_self]
      · rw [lookup_cons_ne _ _ hna, ih]
        by_cases hnk : n = k
        · rw [if_pos hnk, if_pos hnk, lookup_cons_ne _ _ hna]
        · rw [if_neg hnk, if_neg hnk, lookup_cons_ne _ _ hna]

theorem groupVals_cons (pk pv : String) (ps : List (String × String)) (n : String) :
    groupVals ((pk, pv) :: ps) n
      = if pk = n then pv :: groupVals ps n else groupVals ps n := by
  simp only [groupVals, List.filterMap_cons]
  split <;> rename_i hsplit <;> simp_all

theorem lookup_groupFold (ps : List (String × String)) (g : List (String × List String))
    (n : String) :
    List.lookup n (groupFold g ps)
      = (match List.lookup n g with
        | some vs => some (vs ++ groupVals ps n)
        | none => if groupVals ps n = [] then none else some (groupVals ps n)) := by
  induction ps generalizing g with
  | nil => cases h : List.lookup n g <;> simp [groupFold, groupVals, h]
  | cons p ps ih =>
    obtain ⟨pk, pv⟩ := p
    rw [groupFold, List.foldl_cons]
    have step : List.lookup n (groupFold (setdefaultAppend g pk pv) ps)
        = (match List.lookup n (setdefaultAppend g pk pv) with
          | some vs => some (vs ++ groupVals ps n)
          | none => if groupVals ps n = [] then none else some (groupVals ps n)) :=
      ih (setdefaultAppend g pk pv)
    rw [groupFold] at step
    rw [step, lookup_setdefaultAppend, groupVals_cons]
    by_cases hn : n = pk
    · subst hn
      rw [if_pos rfl, if_pos rfl]
      cases h : List.lookup n g <;> simp [h, List.append_assoc]
    · rw [if_neg hn, if_neg (fun hh : pk = n => hn hh.symm)]

theorem extractStep_eq (acc : List String) (c : String) :
    extractStep acc c
      = if keepComment (cleanCommentSpec c) then acc ++ [cleanCommentSpec c] else acc := rfl

theorem foldl_extractStep (cs : List String) (acc : List String) :
    cs.foldl extractStep acc = acc ++ (cs.map cleanCommentSpec).filter keepComment := by
  induction cs generalizing acc with
  | nil => simp
  | cons c cs ih =>
    rw [List.foldl_cons, extractStep_eq, ih]
    by_cases h : keepComment (cleanCommentSpec c) <;>
      simp [h, List.filter_cons, List.append_assoc]

theorem extractComments_eq_fold (cs : List String) :
    extractComments cs = joinSep " " (cs.foldl extractStep []) := rfl

theorem serviceRows_nil (els : List Element) (h : els.filter Element.isMethod = []) :
    serviceRows els = [] := by
  induction els with
  | nil => rfl
  | cons hd tl ih => cases hd <;> simp_all [serviceRows, Element.isMethod, List.filter_cons]

/-! ## Claim theorems -/

/-- C1: for every map-typed field the formatted type string is
`"map of <keyDisplay> to <valueLabel>"`, where the key display name comes
from the same `TYPE_MAP` substitution used for value types (`typeMapGet k k`,
with no link or inline-code wrapping applied to it), the value label is
exactly the unwrapped label of the value type, and the map wrapping applies
for every value of the repeated flag — so it takes precedence over the
`"array of"` wrapping. -/
theorem mapType_format (t k : String) (r : Bool) (hk : k ≠ "") :
    formatTypeForDocs t r (some k)
      = "map of " ++ typeMapGet k k ++ " to " ++ formatTypeForDocs t false none := by
  simp [formatTypeForDocs, hk]

/-- C1 witness: the spec's worked example — key `string`, value `int32`
render as `map of string to `integer``. -/
theorem mapType_format_example :
    formatTypeForDocs "int32" false (some "string") = "map of string to `integer`" :=
  (mapType_format "int32" "string" false (by decide)).trans rfl

/-- C2 counterexample: `google.protobuf.Duration` is not in the fixed
`TYPE_MAP` table, yet the formatter renders it unlinked in inline code
rather than as the Markdown link the claim prescribes for every name
outside the table. -/
theorem typeFormat_unlinked_cex :
    List.lookup "google.protobuf.Duration" TYPE_MAP = none
    ∧ formatTypeForDocs "google.protobuf.Duration" false none = "`Duration`"
    ∧ (("`Duration`" : String) == "[`Duration`](#duration)") = false :=
  ⟨rfl, rfl, rfl⟩

/-- C2 amended: a type name renders unlinked in inline code exactly when it
is in the fixed table or starts with `google.protobuf`; every other name
renders as a Markdown link whose label is the simple name (the suffix after
the last `.`) in inline code and whose anchor is the lowercase form of that
simple name. -/
theorem typeFormat_amended (t : String) :
    formatTypeForDocs t false none
      = (if (List.lookup t TYPE_MAP).isSome || sStarts t "google.protobuf" then
          "`" ++ typeMapGet t (lastComponent t) ++ "`"
        else
          "[`" ++ lastComponent t ++ "`](#" ++ lowerStr (lastComponent t) ++ ")") := by
  unfold formatTypeForDocs typeMapGet
  cases h : List.lookup t TYPE_MAP <;> simp [h]

/-- C5: the requiredness cell of a field row is `"Optional (OneOf)"`
whenever the row is built for a oneof member, regardless of any other
annotation; otherwise it is `"Yes"` exactly when the cardinality annotation
equals `REQUIRED` or some option whose name contains `field_behavior` has a
value containing `REQUIRED`, and `"No"` otherwise.  A map field has no
cardinality annotation, so for it only the option condition can force
`"Yes"`. -/
theorem required_cell (n ty k v : String) (c : Option String) (opts : List OptionEntry)
    (cm : List String) (b : Bool) :
    (processField (Element.field n c ty opts cm) b).getD 2 ""
      = (if b = true then "Optional (OneOf)"
        else if c = some "REQUIRED"
            ∨ ∃ o ∈ opts, strContains o.name "field_behavior" = true
              ∧ strContains o.value "REQUIRED" = true then "Yes"
        else "No")
    ∧ (processField (Element.mapField n k v opts cm) b).getD 2 ""
      = (if b = true then "Optional (OneOf)"
        else if ∃ o ∈ opts, strContains o.name "field_behavior" = true
            ∧ strContains o.value "REQUIRED" = true then "Yes"
        else "No") := by
  constructor <;> cases b <;>
    simp [processField, Element.optionsOf, List.any_eq_true, Bool.and_eq_true, beq_iff_eq]

/-- C3: the message macro converts exactly the missing-file condition into
`"**Error:** Proto not found: <path>"` and lets any other exception
propagate uncaught, while the enum and service macros convert every
exception into `"**Error:** <message>"`; and in all three macros a name
absent from a successfully parsed file yields the specific
`"**Error:** <Kind> `<name>` not found."` string rather than an
exception. -/
theorem macro_error_handling (m f msg : String) (raw : List Element)
    (hm : findType (attachComments raw) m TargetKind.message = none)
    (he : findType (attachComments raw) m TargetKind.enum = none)
    (hs : findType (attachComments raw) m TargetKind.service = none) :
    protoToTable m f ParseOutcome.fileNotFound
        = Except.ok ("**Error:** Proto not found: " ++ f)
    ∧ protoToTable m f (ParseOutcome.parseError msg)
        = Except.error (PyError.otherError msg)
    ∧ protoEnumToTable m f ParseOutcome.fileNotFound
        = Except.ok ("**Error:** Proto not found: " ++ f)
    ∧ protoEnumToTable m f (ParseOutcome.parseError msg)
        = Except.ok ("**Error:** " ++ msg)
    ∧ protoServiceToTable m f ParseOutcome.fileNotFound
        = Except.ok ("**Error:** Proto not found: " ++ f)
    ∧ protoServiceToTable m f (ParseOutcome.parseError msg)
        = Except.ok ("**Error:** " ++ msg)
    ∧ protoToTable m f (ParseOutcome.ok raw)
        = Except.ok ("**Error:** Message `" ++ m ++ "` not found.")
    ∧ protoEnumToTable m f (ParseOutcome.ok raw)
        = Except.ok ("**Error:** Enum `" ++ m ++ "` not found.")
    ∧ protoServiceToTable m f (ParseOutcome.ok raw)
        = Except.ok ("**Error:** Service `" ++ m ++ "` not found.") := by
  refine ⟨?_, rfl, ?_, rfl, ?_, rfl, ?_, ?_, ?_⟩
  · show Except.ok ("**Error:** " ++ ("Proto not found: " ++ f)) = _
    rw [← String.append_assoc]
    rfl
  · show Except.ok ("**Error:** " ++ ("Proto not found: " ++ f)) = _
    rw [← String.append_assoc]
    rfl
  · show Except.ok ("**Error:** " ++ ("Proto not found: " ++ f)) = _
    rw [← String.append_assoc]
    rfl
  · simp [protoToTable, parseProto, hm]
  · simp [protoEnumToTable, parseProto, he]
  · simp [protoServiceToTable, parseProto, hs]

/-- C3 witness: the nine guarantees at a concrete name, path, parser
message and (empty) parsed file. -/
theorem macro_error_handling_example :
    protoToTable "Bogus" "specification/a2a.proto" ParseOutcome.fileNotFound
        = Except.ok "**Error:** Proto not found: specification/a2a.proto"
    ∧ protoToTable "Bogus" "specification/a2a.proto" (ParseOutcome.parseError "boom")
        = Except.error (PyError.otherError "boom")
    ∧ protoEnumToTable "Bogus" "specification/a2a.proto" ParseOutcome.fileNotFound
        = Except.ok "**Error:** Proto not found: specification/a2a.proto"
    ∧ protoEnumToTable "Bogus" "specification/a2a.proto" (ParseOutcome.parseError "boom")
        = Except.ok "**Error:** boom"
    ∧ protoServiceToTable "Bogus" "specification/a2a.proto" ParseOutcome.fileNotFound
        = Except.ok "**Error:** Proto not found: specification/a2a.proto"
    ∧ protoServiceToTable "Bogus" "specification/a2a.proto" (ParseOutcome.parseError "boom")
        = Except.ok "**Error:** boom"
    ∧ protoToTable "Bogus" "specification/a2a.proto" (ParseOutcome.ok [])
        = Except.ok "**Error:** Message `Bogus` not found."
    ∧ protoEnumToTable "Bogus" "specification/a2a.proto" (ParseOutcome.ok [])
        = Except.ok "**Error:** Enum `Bogus` not found."
    ∧ protoServiceToTable "Bogus" "specification/a2a.proto" (ParseOutcome.ok [])
        = Except.ok "**Error:** Service `Bogus` not found." :=
  macro_error_handling "Bogus" "specification/a2a.proto" "boom" []
    (by simp [attachComments, attachGo, findType])
    (by simp [attachComments, attachGo, findType])
    (by simp [attachComments, attachGo, findType])

/-- C6: the comment-attachment walk gives a non-comment element preceded by
a contiguous run of comments exactly that run as its `comments` attribute,
resets the buffer before processing the rest of the sequence, recurses into
nested element lists (messages, oneofs) with a fresh empty buffer so that
comments never cross nesting levels, and silently drops a trailing run of
comments not followed by any element. -/
theorem attach_comments_run (texts : List String) (el : Element) (rest : List Element)
    (n : String) (els : List Element) (cm : List String)
    (h : el.isComment = false) :
    attachComments (texts.map Element.comment ++ el :: rest)
        = attachOne el texts :: attachComments rest
    ∧ (attachOne el texts).commentsOf = texts
    ∧ attachComments (texts.map Element.comment) = []
    ∧ attachOne (Element.message n els cm) texts
        = Element.message n (attachComments els) texts
    ∧ attachOne (Element.oneOf n els cm) texts
        = Element.oneOf n (attachComments els) texts := by
  refine ⟨?_, ?_, ?_, rfl, rfl⟩
  · rw [attachComments, attachGo_comments]
    simpa [attachComments] using attachGo_cons_real el h texts rest
  · cases el <;> simp_all [attachOne, Element.commentsOf, Element.isComment]
  · have h3 := attachGo_comments texts [] []
    simp only [List.append_nil, List.nil_append] at h3
    rw [attachComments, h3]
    simp [attachGo]

/-- C6 witness: a field preceded by two comments receives exactly those two
comments, and a trailing comment pair alone is dropped. -/
theorem attach_comments_run_example :
    attachComments [Element.comment "a", Element.comment "b",
        Element.field "f" none "string" [] []]
      = [Element.field "f" none "string" [] ["a", "b"]]
    ∧ attachComments [Element.comment "a", Element.comment "b"] = [] := by
  have h := attach_comments_run ["a", "b"] (Element.field "f" none "string" [] [])
    [] "M" [] [] rfl
  refine ⟨h.1.trans ?_, h.2.2.1⟩
  simp [attachOne, attachComments, attachGo]

/-- C7 counterexample: the cleaning procedure of the code strips a leading
`*` from the lines of line comments too (`"// *x"` yields `"x"`, the claim
predicts `"*x"`), and also strips a trailing `*/` from line comments
(`"// y */"` yields `"y"`, the claim predicts `"y */"`). -/
theorem extract_comments_cex :
    extractComments ["// *x"] = "x"
    ∧ specDescriptionC7 ["// *x"] = "*x"
    ∧ (("x" : String) == "*x") = false
    ∧ extractComments ["// y */"] = "y"
    ∧ specDescriptionC7 ["// y */"] = "y */"
    ∧ (("y" : String) == "y */") = false :=
  ⟨rfl, rfl, rfl, rfl, rfl, rfl⟩

/-- C7 amended: the description is computed by cleaning each attached raw
comment — stripping a leading `//`, then a leading `/*` and a trailing
`*/`, and stripping a leading `*` from each whitespace-trimmed line of
every comment regardless of its style — space-joining the non-empty lines,
entirely omitting any cleaned comment starting with `protolint:`, `--8<--`
or `Next ID:`, and joining the survivors with a single space; no attached
comments yield the empty string. -/
theorem extract_comments_amended (cs : List String) :
    extractComments cs = joinSep " " ((cs.map cleanCommentSpec).filter keepComment)
    ∧ extractComments [] = ""
    ∧ extractComments ["/* Next ID: 5 */"] = ""
    ∧ extractComments ["// Describes X."] = "Describes X." := by
  refine ⟨?_, rfl, rfl, rfl⟩
  rw [extractComments_eq_fold, foldl_extractStep]
  rfl

/-- C8 counterexample: a field with declared name `foo_bar` and a
`json_name` option whose quoted value is empty renders the derived
camelCase name `fooBar`, not the (empty) option value the claim
prescribes whenever the option is present. -/
theorem display_name_cex :
    (processField (Element.field "foo_bar" none "string" [⟨"json_name", "\"\""⟩] []) false).getD 0 ""
        = "`fooBar`"
    ∧ specDisplayNameC8 [⟨"json_name", "\"\""⟩] "foo_bar" = ""
    ∧ (("`fooBar`" : String) == "``") = false :=
  ⟨rfl, rfl, rfl⟩

/-- C8 amended: the display name is the quote-stripped value of the first
`json_name` field option when such an option is present and that stripped
value is non-empty; otherwise it is the camelCase conversion of the
declared name — splitting on underscores, keeping the first segment as-is,
title-casing each subsequent segment and concatenating with no
separator. -/
theorem display_name_amended (n ty k v : String) (c : Option String)
    (opts : List OptionEntry) (cm : List String) (b : Bool) :
    (processField (Element.field n c ty opts cm) b).getD 0 ""
      = "`" ++ (match jsonNameOf opts with
          | some j => if j = "" then snakeToCamelCase n else j
          | none => snakeToCamelCase n) ++ "`"
    ∧ (processField (Element.mapField n k v opts cm) b).getD 0 ""
      = "`" ++ (match jsonNameOf opts with
          | some j => if j = "" then snakeToCamelCase n else j
          | none => snakeToCamelCase n) ++ "`"
    ∧ snakeToCamelCase n
        = (splitChar '_' n).headD "" ++ joinSep "" (((splitChar '_' n).drop 1).map pyTitle)
    ∧ (processField (Element.field "foo_bar" none "string"
          [⟨"json_name", "\"fooBar\""⟩] []) false).getD 0 "" = "`fooBar`"
    ∧ snakeToCamelCase "foo_bar" = "fooBar" := by
  refine ⟨?_, ?_, rfl, rfl, rfl⟩ <;> rfl

/-- C9: a message found by the message macro whose direct children produce
no field rows renders as the literal string `"None"`, and a service found
by the service macro that contains no methods renders as the literal string
`"None"`. -/
theorem none_when_empty (m s f : String) (raw : List Element) (tm sv : Element)
    (hm : findType (attachComments raw) m TargetKind.message = some tm)
    (hr : rowsSpec tm.elementsOf = [])
    (hs : findType (attachComments raw) s TargetKind.service = some sv)
    (hn : sv.elementsOf.filter Element.isMethod = []) :
    protoToTable m f (ParseOutcome.ok raw) = Except.ok "None"
    ∧ protoServiceToTable s f (ParseOutcome.ok raw) = Except.ok "None" := by
  constructor
  · simp [protoToTable, parseProto, hm, collectRows_eq, hr]
  · simp [protoServiceToTable, parseProto, hs, serviceRows_nil sv.elementsOf hn]

/-- C9 witness: a message with no children and a service with no methods
both render as `"None"`. -/
theorem none_when_empty_example :
    protoToTable "M" "p.proto"
        (ParseOutcome.ok [Element.message "M" [] [], Element.service "S" [] []])
      = Except.ok "None"
    ∧ protoServiceToTable "S" "p.proto"
        (ParseOutcome.ok [Element.message "M" [] [], Element.service "S" [] []])
      = Except.ok "None" :=
  none_when_empty "M" "S" "p.proto"
    [Element.message "M" [] [], Element.service "S" [] []]
    (Element.message "M" [] []) (Element.service "S" [] [])
    (by simp [attachComments, attachGo, findType, Element.pyName, Element.isKind])
    (by simp [rowsSpec, Element.elementsOf])
    (by simp [attachComments, attachGo, findType, Element.pyName, Element.isKind])
    (by simp [Element.elementsOf])

/-- C10: for every enum the enum macro finds, the returned string is the
enum's extracted description, two newline characters, and the two-column
`Value | Description` table over its `EnumValue` children — even when the
description is empty (the output then starts with the two newlines) and
even when there are no `EnumValue` children; and the enum macro never
returns the literal string `"None"` on any outcome. -/
theorem enum_render (e f : String) (raw : List Element) :
    protoEnumToTable e f (ParseOutcome.ok raw)
      = (match findType (attachComments raw) e TargetKind.enum with
        | none => Except.ok ("**Error:** Enum `" ++ e ++ "` not found.")
        | some el =>
          Except.ok (extractComments el.commentsOf ++ "\n\n"
            ++ tabulate (enumRows el.elementsOf) ["Value", "Description"]))
    ∧ (∀ (o : ParseOutcome), isNoneOutput (protoEnumToTable e f o) = false) := by
  constructor
  · cases hf : findType (attachComments raw) e TargetKind.enum <;>
      simp [protoEnumToTable, parseProto, hf]
  · intro o
    cases o with
    | fileNotFound => rfl
    | parseError msg => rfl
    | ok raw₂ =>
      cases hf : findType (attachComments raw₂) e TargetKind.enum with
      | none =>
        simp only [protoEnumToTable, parseProto, hf, isNoneOutput]
        rfl
      | some el =>
        simp only [protoEnumToTable, parseProto, hf, isNoneOutput]
        rw [beq_eq_false_iff_ne]
        intro hEq
        have hmem : '\n' ∈ (extractComments el.commentsOf ++ "\n\n"
            ++ tabulate (enumRows el.elementsOf) ["Value", "Description"]).data := by
          show '\n' ∈ (extractComments el.commentsOf).data ++ ['\n', '\n']
            ++ (tabulate (enumRows el.elementsOf) ["Value", "Description"]).data
          simp
        rw [hEq] at hmem
        exact absurd hmem (by decide)

/-- C4: every `Field` member of a oneof group yields exactly one table row
whose required cell is `"Optional (OneOf)"`, the rows extracted from a
message body are exactly the declarative `rowsSpec` (one row per field and
per oneof `Field` member, in declaration order), the group recorded under a
oneof name holds exactly the member display names in declaration order, and
the rendered message output carries — after the table — one mutual-exclusion
note per recorded group exactly when that group has more than one recorded
member (none for a single-member group). -/
theorem oneof_rows_and_note (mname f : String) (raw : List Element) :
    (∀ n c ty o cm,
      (processField (Element.field n c ty o cm) true).getD 2 "" = "Optional (OneOf)")
    ∧ (∀ els, (collectRows els).1 = rowsSpec els)
    ∧ (∀ els n, List.lookup n (collectRows els).2
        = (if groupVals (oneofPairs els) n = [] then none
          else some (groupVals (oneofPairs els) n)))
    ∧ protoToTable mname f (ParseOutcome.ok raw)
        = (match findType (attachComments raw) mname TargetKind.message with
          | none => Except.ok ("**Error:** Message `" ++ mname ++ "` not found.")
          | some tm =>
            if rowsSpec tm.elementsOf = [] then Except.ok "None"
            else
              Except.ok (joinSep "\n"
                ((if extractComments tm.commentsOf = "" then []
                  else [extractComments tm.commentsOf, ""])
                  ++ [tabulate (rowsSpec tm.elementsOf) messageHeaders]
                  ++ (if (collectRows tm.elementsOf).2 = [] then []
                      else "" :: (collectRows tm.elementsOf).2.filterMap
                        (fun p => if 1 < p.2.length then some (oneofNote mname p.2)
                          else none))))) := by
  refine ⟨?_, ?_, ?_, ?_⟩
  · intro n c ty o cm
    simp [processField]
  · intro els
    rw [collectRows_eq]
  · intro els n
    rw [collectRows_eq]
    show List.lookup n (groupFold [] (oneofPairs els)) = _
    rw [lookup_groupFold]
    simp [List.lookup]
  · cases hf : findType (attachComments raw) mname TargetKind.message with
    | none => simp [protoToTable, parseProto, hf]
    | some tm =>
      simp only [protoToTable, parseProto, hf, collectRows_eq]
      by_cases hrows : rowsSpec tm.elementsOf = []
      · simp [hrows]
      · by_cases hg : groupFold [] (oneofPairs tm.elementsOf) = [] <;>
          by_cases hdesc : extractComments tm.commentsOf = "" <;>
            simp [hrows, hg, hdesc, List.isEmpty_iff, bne_iff_ne, List.append_assoc]
